import Mathlib

set_option autoImplicit false

/-!
Verification development for the UbiquityTauri device-onboarding core.

The Rust sources embedded here are:
- `src/src-tauri/src/discovery.rs` — UDP discovery TLV decoder and scan loop;
- `src/src-tauri/src/ssh.rs` and `src/src-tauri/src/ssh_process.rs` — the two
  SSH session strategies (their output-classification stages and, for the
  external-process strategy, the SSH_ASKPASS temporary-script branch);
- `src/src-tauri/src/lib.rs` — the `adopt_device` orchestrator.

Bytes (`u8`) are modelled as `Nat` with `< 256` side conditions where a
property depends on the byte range.  Rust `String` values are modelled as
Lean `String` except for the three free-text device fields (`model`,
`firmware`, `hostname`), which are kept as the raw TLV value bytes: the
source stores `String::from_utf8_lossy` of exactly those bytes, and no
verified property inspects the decoded text.
-/

namespace UbiquityTauri

/-! ### Frame codec: discovery.rs constants and rendering helpers -/

def TLV_MAC_ADDRESS : Nat := 0x01
def TLV_IP_INFO : Nat := 0x02
def TLV_FIRMWARE : Nat := 0x03
def TLV_MODEL : Nat := 0x14
def TLV_PLATFORM : Nat := 0x0B

/-- Uppercase hexadecimal digit, as produced by Rust `format!("{:02X}", b)`
for each of the two nibbles of a byte. -/
def hexDigit (n : Nat) : Char :=
  if n < 10 then Char.ofNat (48 + n) else Char.ofNat (55 + n)

/-- Rendering of one byte by `format!("{:02X}", b)`: two uppercase hex
digits (exact for `b < 256`, the range of `u8`). -/
def byteHex (b : Nat) : String :=
  String.mk [hexDigit (b / 16), hexDigit (b % 16)]

/-- Rust `Vec<String>::join(":")`. -/
def joinColon : List String → String
  | [] => ""
  | [s] => s
  | s :: rest => s ++ ":" ++ joinColon rest

/-- MAC rendering from discovery.rs lines 141-145:
`field_data.iter().map(|b| format!("{:02X}", b)).collect::<Vec<_>>().join(":")`. -/
def formatMac (bytes : List Nat) : String :=
  joinColon (bytes.map byteHex)

/-- Dotted-decimal rendering from discovery.rs lines 150-153:
`format!("{}.{}.{}.{}", ...)` over the first four value bytes. -/
def formatIp (a b c d : Nat) : String :=
  toString a ++ "." ++ toString b ++ "." ++ toString c ++ "." ++ toString d

/-- The `DiscoveredDevice` struct of discovery.rs lines 27-37.  `model`,
`firmware` and `hostname` hold the raw TLV value bytes (the source stores
their `from_utf8_lossy` decoding, which no claim inspects). -/
structure DiscoveredDevice where
  mac : String
  ip : String
  reported_ip : String
  model : List Nat
  firmware : List Nat
  hostname : List Nat
  is_managed : Bool
deriving DecidableEq

/-- The six mutable locals of `parse_tlv_response` (discovery.rs lines
117-122), threaded through the TLV loop. -/
structure ParseState where
  mac : String
  reported_ip : String
  model : List Nat
  firmware : List Nat
  hostname : List Nat
  is_managed : Bool
deriving DecidableEq

/-- One arm of the `match field_type` statement of discovery.rs lines
138-172, applied to the current state. -/
def applyField (st : ParseState) (field_type : Nat) (field_data : List Nat) :
    ParseState :=
  if field_type = TLV_MAC_ADDRESS then
    if field_data.length = 6 then { st with mac := formatMac field_data } else st
  else if field_type = TLV_IP_INFO then
    if 4 ≤ field_data.length then
      { st with reported_ip := (formatIp (field_data.getD 0 0)
          (field_data.getD 1 0) (field_data.getD 2 0) (field_data.getD 3 0)) }
    else st
  else if field_type = TLV_FIRMWARE then { st with firmware := field_data }
  else if field_type = TLV_MODEL then { st with model := field_data }
  else if field_type = TLV_PLATFORM then { st with hostname := field_data }
  else if field_type = 0x06 then { st with is_managed := true }
  else st

/-- Record step used when the loop is viewed as a fold. -/
def stepField (st : ParseState) (r : Nat × List Nat) : ParseState :=
  applyField st r.1 r.2

/-- The TLV `while` loop of discovery.rs lines 127-175, viewed as the list
of `(field_type, field_data)` records it visits.  The loop is modelled by
structural recursion on a fuel argument; each iteration advances `pos` by
at least 3, so any fuel with `data.length ≤ pos + fuel` is sufficient
(`tlvGo_congr` below shows the result does not depend on the fuel chosen). -/
def tlvGo (data : List Nat) : Nat → Nat → List (Nat × List Nat)
  | 0, _ => []
  | fuel + 1, pos =>
    if pos + 4 ≤ data.length then
      if data.length <
          pos + 3 + (256 * data.getD (pos + 1) 0 + data.getD (pos + 2) 0) then
        []
      else
        (data.getD pos 0, (data.drop (pos + 3)).take
            (256 * data.getD (pos + 1) 0 + data.getD (pos + 2) 0)) ::
          tlvGo data fuel
            (pos + 3 + (256 * data.getD (pos + 1) 0 + data.getD (pos + 2) 0))
    else []

/-- The TLV `while` loop of discovery.rs lines 127-175 threading the
mutable state, with the same fuel discipline as `tlvGo`. -/
def parseGo (data : List Nat) : Nat → Nat → ParseState → ParseState
  | 0, _, st => st
  | fuel + 1, pos, st =>
    if pos + 4 ≤ data.length then
      if data.length <
          pos + 3 + (256 * data.getD (pos + 1) 0 + data.getD (pos + 2) 0) then
        st
      else
        parseGo data fuel
          (pos + 3 + (256 * data.getD (pos + 1) 0 + data.getD (pos + 2) 0))
          (applyField st (data.getD pos 0) ((data.drop (pos + 3)).take
            (256 * data.getD (pos + 1) 0 + data.getD (pos + 2) 0)))
    else st

/-- The records visited by `parse_tlv_response` on a frame (loop entry is
at `pos = 4`, after the skipped header). -/
def tlvRecords (data : List Nat) : List (Nat × List Nat) :=
  tlvGo data data.length 4

/-- `parse_tlv_response` of discovery.rs lines 112-190. -/
def parse_tlv_response (data : List Nat) (source_ip : String) :
    Option DiscoveredDevice :=
  if data.length < 4 then none
  else
    let st := parseGo data data.length 4
      ⟨"", source_ip, [], [], [], false⟩
    if st.mac = "" then none
    else some ⟨st.mac, source_ip, st.reported_ip, st.model, st.firmware,
      st.hostname, st.is_managed⟩

/-! ### Discovery scanner: the dedup loop of scan_network -/

/-- The receive loop body of `scan_network` (discovery.rs lines 73-105)
restricted to its pure content: each received datagram `(bytes, source_ip)`
is parsed and pushed unless a device with the same MAC is already present
(lines 87-92). -/
def scanFold : List (List Nat × String) → List DiscoveredDevice →
    List DiscoveredDevice
  | [], devices => devices
  | (bytes, src) :: rest, devices =>
    match parse_tlv_response bytes src with
    | some device =>
      if devices.any (fun d => d.mac == device.mac) then scanFold rest devices
      else scanFold rest (devices ++ [device])
    | none => scanFold rest devices

/-- Result of a scan that received the given datagrams, in order. -/
def scan_results (datagrams : List (List Nat × String)) :
    List DiscoveredDevice :=
  scanFold datagrams []

/-- First datagram whose parse yields a device with MAC `m`, if any. -/
def firstDeviceWithMac (datagrams : List (List Nat × String)) (m : String) :
    Option DiscoveredDevice :=
  datagrams.findSome? (fun p =>
    match parse_tlv_response p.1 p.2 with
    | some d => if d.mac = m then some d else none
    | none => none)

deriving instance DecidableEq for Except

/-! ### Session strategies: the SshError taxonomy and text classification -/

/-- The `SshError` enum, identical in ssh.rs lines 17-23 and
ssh_process.rs lines 17-23. -/
inductive SshError where
  | connectionRefused : String → SshError
  | connectionTimeout : String → SshError
  | authFailed : String → SshError
  | commandFailed : String → SshError
  | other : String → SshError
deriving DecidableEq

/-- The `Display` impl for `SshError`, identical in ssh.rs lines 25-35 and
ssh_process.rs lines 25-35. -/
def SshError.display : SshError → String
  | .connectionRefused m => "Connection refused: " ++ m
  | .connectionTimeout m => "Connection timeout: " ++ m
  | .authFailed m => "Authentication failed: " ++ m
  | .commandFailed m => "Command failed: " ++ m
  | .other m => "SSH error: " ++ m

/-- Substring test of Rust `str::contains(pat)` on character lists. -/
def containsSub (needle : List Char) : List Char → Bool
  | [] => needle.isEmpty
  | c :: rest => needle.isPrefixOf (c :: rest) || containsSub needle rest

/-- Rust `str::contains` on the string level. -/
def rustContains (s pat : String) : Bool :=
  containsSub pat.data s.data

/-- Rust `str::to_lowercase`, which agrees with per-character ASCII
lowercasing on the ASCII outputs classified here. -/
def rustToLowercase (s : String) : String :=
  String.mk (s.data.map Char.toLower)

/-- Rust `str::trim`: strip leading and trailing whitespace. -/
def rustTrim (s : String) : String :=
  String.mk
    (((s.data.dropWhile Char.isWhitespace).reverse.dropWhile
      Char.isWhitespace).reverse)

/-- Success/failure text heuristic applied to captured session output.
This stage is line-identical in ssh.rs lines 167-174 (on the collected
channel output) and ssh_process.rs lines 171-178 (on captured stdout):
output whose lowercasing contains `"error"` but not `"inform"` is a
`CommandFailed`; anything else is success, trimmed. -/
def set_inform_classify (output : String) : Except SshError String :=
  if rustContains (rustToLowercase output) "error" &&
      !(rustContains (rustToLowercase output) "inform") then
    Except.error (SshError.commandFailed
      ("set-inform returned an error: " ++ rustTrim output))
  else Except.ok (rustTrim output)

/-- Failure classification of ssh_process.rs lines 143-167, applied to the
trimmed combined stdout/stderr of a non-zero-exit ssh process. -/
def classify_process_failure (ip : String) (combined : String) : SshError :=
  if rustContains combined "Permission denied" ||
      rustContains combined "Authentication failed" then
    SshError.authFailed ("Authentication failed for " ++ ip ++
      " â€” password may have been changed from factory default")
  else if rustContains combined "Connection refused" then
    SshError.connectionRefused ("Connection refused at " ++ ip)
  else if rustContains combined "timed out" ||
      rustContains combined "Connection timeout" then
    SshError.connectionTimeout ("Timed out connecting to " ++ ip)
  else
    SshError.other ("Failed to connect to " ++ ip ++ ": " ++ combined)

/-! ### External-process strategy: the SSH_ASKPASS temporary-script branch -/

/-- Environment-determined outcome of running the external ssh process
under the `tokio::time::timeout` wrapper (ssh_process.rs lines 106-129). -/
inductive ExecOutcome where
  | timeout : ExecOutcome
  | spawnError : String → ExecOutcome
  | completed : Bool → String → String → ExecOutcome
deriving DecidableEq

/-- Outcomes of the three effectful steps of the SSH_ASKPASS branch:
writing the script (`tokio::fs::write`, line 93), chmodding it
(`set_permissions`, line 102), and running ssh (lines 106-129).
Each `Option String` is `some msg` when the step fails with that error. -/
structure AskpassEnv where
  writeError : Option String
  chmodError : Option String
  exec : ExecOutcome
deriving DecidableEq

/-- The SSH_ASKPASS branch of `ssh_process::set_inform` (ssh_process.rs
lines 84-178), the path that creates the temporary askpass script.  The
first component is the strategy result; the second records whether the
script file still exists when the call returns (the `remove_file` at line
132 runs only after `.output()` has produced a result — every `?` early
return before it leaves the file in place). -/
def ssh_process_askpass (ip : String) (env : AskpassEnv) :
    Except SshError String × Bool :=
  match env.writeError with
  | some e =>
    (Except.error (SshError.other ("Failed to create askpass script: " ++ e)),
      false)
  | none =>
    match env.chmodError with
    | some e =>
      (Except.error (SshError.other ("Failed to chmod askpass: " ++ e)), true)
    | none =>
      match env.exec with
      | .timeout =>
        (Except.error (SshError.connectionTimeout
          ("Timed out connecting to " ++ ip)), true)
      | .spawnError e =>
        (Except.error (SshError.other ("Failed to run ssh: " ++ e)), true)
      | .completed exitSuccess stdout stderr =>
        if !exitSuccess then
          (Except.error (classify_process_failure ip
            (rustTrim (stdout ++ "\n" ++ stderr))), false)
        else (set_inform_classify stdout, false)

/-! ### Adoption orchestrator: adopt_device of lib.rs -/

/-- The `AdoptResult` struct of lib.rs lines 26-31. -/
structure AdoptResult where
  success : Bool
  output : String
deriving DecidableEq

/-- The `adopt_device` orchestrator of lib.rs lines 67-115, parameterized
by the outcomes the two session strategies produce for this target
(`procOutcome` for `ssh_process::set_inform`, `russhOutcome` for
`ssh::set_inform`).  The second component of the result records whether
the russh fallback strategy was invoked: the source consults it only on
the non-`AuthFailed` error path. -/
def adopt_device (ip inform_url : String) (custom_password : Option String)
    (procOutcome russhOutcome : Except SshError String) :
    Except String AdoptResult × Bool :=
  match procOutcome with
  | .ok output => (Except.ok ⟨true, output⟩, false)
  | .error e =>
    match e with
    | .authFailed m =>
      (Except.error (SshError.authFailed m).display, false)
    | _ =>
      match russhOutcome with
      | .ok output => (Except.ok ⟨true, output⟩, true)
      | .error _ =>
        (Except.error ("SSH error: Failed to connect to " ++ ip ++ ": " ++
          e.display), true)

/-- Value of the last valid (6-byte) MAC-typed record of a record list,
if any: the value the loop's `mac` local holds at loop exit. -/
def lastMac : List (Nat × List Nat) → Option (List Nat)
  | [] => none
  | r :: rest =>
    match lastMac rest with
    | some v => some v
    | none =>
      if r.1 = TLV_MAC_ADDRESS ∧ r.2.length = 6 then some r.2 else none

/-- The last valid MAC record of the frame starting at the loop entry. -/
def macBytesOf (data : List Nat) : Option (List Nat) :=
  lastMac (tlvRecords data)

/-- Decidable presence of a valid MAC record in a frame. -/
def macRecordPresent (data : List Nat) : Bool :=
  (tlvRecords data).any (fun r => r.1 == TLV_MAC_ADDRESS && r.2.length == 6)

/-- Device assembled from the state obtained by folding a record list,
as in discovery.rs lines 181-189. -/
def deviceOfRecords (source_ip : String) (recs : List (Nat × List Nat)) :
    DiscoveredDevice :=
  let st := recs.foldl stepField ⟨"", source_ip, [], [], [], false⟩
  ⟨st.mac, source_ip, st.reported_ip, st.model, st.firmware, st.hostname,
    st.is_managed⟩

/-! ### Concrete frames and devices used in the claim checks -/

/-- Frame whose final three bytes are the header of a zero-length
managed-indicator (type 0x06) record. -/
def frameTrailingManaged : List Nat :=
  [1, 0, 0, 0,
   0x01, 0x00, 0x06, 0xAA, 0xBB, 0xCC, 0xDD, 0xEE, 0xFF,
   0x06, 0x00, 0x00]

/-- Minimal frame carrying one 6-byte MAC record. -/
def frameWithMac : List Nat :=
  [0, 0, 0, 0, 0x01, 0x00, 0x06, 0xAA, 0xBB, 0xCC, 0xDD, 0xEE, 0xFF]

/-- Device decoded from `frameWithMac` at source 192.168.1.7. -/
def deviceWithMac : DiscoveredDevice :=
  ⟨"AA:BB:CC:DD:EE:FF", "192.168.1.7", "192.168.1.7", [], [], [], false⟩

def frameMacA : List Nat :=
  [0, 0, 0, 0, 0x01, 0x00, 0x06, 0xAA, 0xBB, 0xCC, 0xDD, 0xEE, 0xFF]

def frameMacB : List Nat :=
  [0, 0, 0, 0, 0x01, 0x00, 0x06, 0xAA, 0xBB, 0xCC, 0xDD, 0xEE, 0x00]

def deviceMacA : DiscoveredDevice :=
  ⟨"AA:BB:CC:DD:EE:FF", "10.0.0.1", "10.0.0.1", [], [], [], false⟩

def deviceMacB : DiscoveredDevice :=
  ⟨"AA:BB:CC:DD:EE:00", "10.0.0.2", "10.0.0.2", [], [], [], false⟩

/-- Frame whose only MAC-typed record declares length 2. -/
def frameWrongLenMac : List Nat :=
  [0, 0, 0, 0, 0x01, 0x00, 0x02, 9, 9]

/-- Frame with a valid 6-byte MAC record followed by a 2-byte MAC-typed
record. -/
def frameGoodThenShortMac : List Nat :=
  [0, 0, 0, 0,
   0x01, 0x00, 0x06, 0xAA, 0xBB, 0xCC, 0xDD, 0xEE, 0xFF,
   0x01, 0x00, 0x02, 9, 9]

/-! ### Lemmas about the TLV loop -/

/-- Reading through `take` agrees with reading the original list below the
cut. -/
theorem getD_take_of_lt (l : List Nat) :
    ∀ (n i d : Nat), i < n → (l.take n).getD i d = l.getD i d := by
  induction l with
  | nil => intro n i d _; simp
  | cons a t ih =>
    intro n i d h
    cases n with
    | zero => omega
    | succ m =>
      cases i with
      | zero => simp
      | succ j => simpa using ih m j d (by omega)

/-- The fueled TLV loop does not depend on the fuel, as long as the fuel
dominates the remaining length (each iteration advances `pos` by at least
3, and the loop guard needs 4 bytes). -/
theorem tlvGo_congr (data : List Nat) :
    ∀ (f g pos : Nat), data.length ≤ pos + f → data.length ≤ pos + g →
      tlvGo data f pos = tlvGo data g pos := by
  intro f
  induction f with
  | zero =>
    intro g pos hf _
    cases g with
    | zero => rfl
    | succ g =>
      rw [tlvGo, tlvGo, if_neg (show ¬ pos + 4 ≤ data.length by omega)]
  | succ f ih =>
    intro g pos hf hg
    cases g with
    | zero =>
      rw [tlvGo, tlvGo, if_neg (show ¬ pos + 4 ≤ data.length by omega)]
    | succ g =>
      rw [tlvGo]
      conv_rhs => rw [tlvGo]
      by_cases h4 : pos + 4 ≤ data.length
      · rw [if_pos h4, if_pos h4]
        by_cases hoob : data.length <
            pos + 3 + (256 * data.getD (pos + 1) 0 + data.getD (pos + 2) 0)
        · rw [if_pos hoob, if_pos hoob]
        · rw [if_neg hoob, if_neg hoob]
          have := ih g
            (pos + 3 + (256 * data.getD (pos + 1) 0 + data.getD (pos + 2) 0))
            (by omega) (by omega)
          rw [this]
      · rw [if_neg h4, if_neg h4]

/-- The state-threading loop is the fold of `stepField` over the record
list the loop visits. -/
theorem parseGo_eq_foldl (data : List Nat) :
    ∀ (fuel pos : Nat) (st : ParseState),
      parseGo data fuel pos st = (tlvGo data fuel pos).foldl stepField st := by
  intro fuel
  induction fuel with
  | zero => intro pos st; rfl
  | succ f ih =>
    intro pos st
    rw [parseGo, tlvGo]
    by_cases h4 : pos + 4 ≤ data.length
    · rw [if_pos h4, if_pos h4]
      by_cases hoob : data.length <
          pos + 3 + (256 * data.getD (pos + 1) 0 + data.getD (pos + 2) 0)
      · rw [if_pos hoob, if_pos hoob, List.foldl_nil]
      · rw [if_neg hoob, if_neg hoob, List.foldl_cons]
        exact ih _ _
    · rw [if_neg h4, if_neg h4, List.foldl_nil]

/-- Truncating a frame only ever removes a suffix of the records the TLV
loop visits: every record of the truncation is a record of the original
frame, in the same position. -/
theorem tlvGo_take_of_prefix (data : List Nat) (n : Nat) :
    ∀ (fuel pos : Nat), tlvGo (data.take n) fuel pos <+: tlvGo data fuel pos := by
  intro fuel
  induction fuel with
  | zero => intro pos; exact List.prefix_rfl
  | succ f ih =>
    intro pos
    rw [tlvGo]
    conv_rhs => rw [tlvGo]
    by_cases h4 : pos + 4 ≤ (data.take n).length
    · have htl : (data.take n).length = min n data.length := List.length_take n data
      have h4d : pos + 4 ≤ data.length := by omega
      have h4n : pos + 4 ≤ n := by omega
      have e0 : (data.take n).getD pos 0 = data.getD pos 0 :=
        getD_take_of_lt data n pos 0 (by omega)
      have e1 : (data.take n).getD (pos + 1) 0 = data.getD (pos + 1) 0 :=
        getD_take_of_lt data n (pos + 1) 0 (by omega)
      have e2 : (data.take n).getD (pos + 2) 0 = data.getD (pos + 2) 0 :=
        getD_take_of_lt data n (pos + 2) 0 (by omega)
      rw [if_pos h4, if_pos h4d, e0, e1, e2]
      by_cases hoob : (data.take n).length <
          pos + 3 + (256 * data.getD (pos + 1) 0 + data.getD (pos + 2) 0)
      · rw [if_pos hoob]
        exact List.nil_prefix
      · have hin : pos + 3 +
            (256 * data.getD (pos + 1) 0 + data.getD (pos + 2) 0) ≤
            min n data.length := by omega
        rw [if_neg hoob, if_neg (by omega)]
        have hv : ((data.take n).drop (pos + 3)).take
            (256 * data.getD (pos + 1) 0 + data.getD (pos + 2) 0) =
            (data.drop (pos + 3)).take
              (256 * data.getD (pos + 1) 0 + data.getD (pos + 2) 0) := by
          rw [List.drop_take, List.take_take]
          congr 1
          omega
        rw [hv]
        exact List.cons_prefix_cons.mpr ⟨rfl, ih _⟩
    · rw [if_neg h4]
      exact List.nil_prefix

/-- Records of a truncated frame form a prefix of the records of the
original frame. -/
theorem tlvRecords_take (data : List Nat) (n : Nat) :
    tlvRecords (data.take n) <+: tlvRecords data := by
  unfold tlvRecords
  have e : tlvGo (data.take n) (data.take n).length 4 =
      tlvGo (data.take n) data.length 4 := by
    refine tlvGo_congr (data.take n) _ _ 4 (by omega) ?_
    have := List.length_take n data
    omega
  rw [e]
  exact tlvGo_take_of_prefix data n data.length 4

/-- Every byte of every record value is a byte of the frame. -/
theorem tlvGo_value_subset (data : List Nat) :
    ∀ (fuel pos : Nat) (r : Nat × List Nat), r ∈ tlvGo data fuel pos →
      ∀ b ∈ r.2, b ∈ data := by
  intro fuel
  induction fuel with
  | zero => intro pos r hr; simp [tlvGo] at hr
  | succ f ih =>
    intro pos r hr b hb
    rw [tlvGo] at hr
    by_cases h4 : pos + 4 ≤ data.length
    · rw [if_pos h4] at hr
      by_cases hoob : data.length <
          pos + 3 + (256 * data.getD (pos + 1) 0 + data.getD (pos + 2) 0)
      · rw [if_pos hoob] at hr
        simp at hr
      · rw [if_neg hoob] at hr
        rcases List.mem_cons.mp hr with heq | htail
        · subst heq
          exact List.drop_subset (pos + 3) data (List.take_subset _ _ hb)
        · exact ih _ r htail b hb
    · rw [if_neg h4] at hr
      simp at hr

/-! ### Lemmas about MAC capture -/

theorem applyField_mac_of_not_valid (st : ParseState) (t : Nat)
    (v : List Nat) (h : ¬(t = TLV_MAC_ADDRESS ∧ v.length = 6)) :
    (applyField st t v).mac = st.mac := by
  unfold applyField
  split_ifs with h1 h2 <;> first
    | rfl
    | exact absurd ⟨h1, h2⟩ h

theorem applyField_mac_of_valid (st : ParseState) (v : List Nat)
    (h6 : v.length = 6) :
    (applyField st TLV_MAC_ADDRESS v).mac = formatMac v := by
  unfold applyField
  rw [if_pos rfl, if_pos h6]

/-- The `mac` component of the loop state after folding a record list:
the rendering of the last valid MAC record, or the incoming value if there
is none. -/
theorem foldl_mac (recs : List (Nat × List Nat)) :
    ∀ st : ParseState,
      (recs.foldl stepField st).mac =
        ((lastMac recs).map formatMac).getD st.mac := by
  induction recs with
  | nil => intro st; rfl
  | cons r rest ih =>
    intro st
    rw [List.foldl_cons, ih, lastMac]
    cases hl : lastMac rest with
    | some v => rfl
    | none =>
      by_cases hr : r.1 = TLV_MAC_ADDRESS ∧ r.2.length = 6
      · rw [if_pos hr]
        show (applyField st r.1 r.2).mac = formatMac r.2
        rw [hr.1]
        exact applyField_mac_of_valid st r.2 hr.2
      · rw [if_neg hr]
        exact applyField_mac_of_not_valid st r.1 r.2 hr

theorem lastMac_eq_none_iff (recs : List (Nat × List Nat)) :
    lastMac recs = none ↔
      ∀ r ∈ recs, ¬(r.1 = TLV_MAC_ADDRESS ∧ r.2.length = 6) := by
  induction recs with
  | nil => simp [lastMac]
  | cons r rest ih =>
    rw [lastMac]
    cases hl : lastMac rest with
    | some v =>
      simp only [List.mem_cons]
      constructor
      · intro h; exact absurd h (by simp)
      · intro h
        exact absurd (ih.mpr (fun x hx => h x (Or.inr hx))) (by simp [hl])
    | none =>
      by_cases hr : r.1 = TLV_MAC_ADDRESS ∧ r.2.length = 6
      · rw [if_pos hr]
        simp only [List.mem_cons]
        constructor
        · intro h; exact absurd h (by simp)
        · intro h; exact absurd hr (h r (Or.inl rfl))
      · rw [if_neg hr]
        simp only [List.mem_cons, true_iff]
        rintro x (rfl | hx)
        · exact hr
        · exact (ih.mp hl) x hx

theorem lastMac_eq_some (recs : List (Nat × List Nat)) :
    ∀ v, lastMac recs = some v →
      v.length = 6 ∧ ∃ r ∈ recs, r.2 = v := by
  induction recs with
  | nil => intro v h; simp [lastMac] at h
  | cons r rest ih =>
    intro v h
    rw [lastMac] at h
    cases hl : lastMac rest with
    | some w =>
      rw [hl] at h
      have hwv : w = v := by simpa using h
      subst hwv
      obtain ⟨h6, x, hx, hxv⟩ := ih _ hl
      exact ⟨h6, x, List.mem_cons_of_mem r hx, hxv⟩
    | none =>
      rw [hl] at h
      by_cases hr : r.1 = TLV_MAC_ADDRESS ∧ r.2.length = 6
      · rw [if_pos hr] at h
        obtain rfl : r.2 = v := by simpa using h
        exact ⟨hr.2, r, List.mem_cons_self r rest, rfl⟩
      · rw [if_neg hr] at h
        simp at h

/-- The TLV loop visits no record when fewer than `pos + 4` bytes exist. -/
theorem tlvGo_stop (data : List Nat) (fuel pos : Nat)
    (h : ¬ pos + 4 ≤ data.length) : tlvGo data fuel pos = [] := by
  cases fuel with
  | zero => rfl
  | succ f => rw [tlvGo, if_neg h]

/-- Closed form of the decoder: short frames decode to `none`; otherwise
the decoder is the fold over the visited records, returning `none` exactly
when the folded `mac` is still empty. -/
theorem parse_tlv_eq (data : List Nat) (s : String) :
    parse_tlv_response data s =
      if data.length < 4 then none
      else if ((tlvRecords data).foldl stepField
          ⟨"", s, [], [], [], false⟩).mac = "" then none
      else some (deviceOfRecords s (tlvRecords data)) := by
  simp only [parse_tlv_response, deviceOfRecords, tlvRecords,
    parseGo_eq_foldl]

theorem formatMac_ne_empty (v : List Nat) (hv : v ≠ []) :
    formatMac v ≠ "" := by
  cases v with
  | nil => exact absurd rfl hv
  | cons b rest =>
    intro h
    have hd := congrArg String.data h
    cases rest with
    | nil => simp [formatMac, joinColon, byteHex] at hd
    | cons c rest2 =>
      rw [show formatMac (b :: c :: rest2) =
        byteHex b ++ ":" ++ formatMac (c :: rest2) from rfl] at hd
      simp [byteHex] at hd

/-- The decoder returns `none` exactly when the frame holds no valid
(6-byte) MAC-typed record. -/
theorem parse_eq_none_iff (data : List Nat) (s : String) :
    parse_tlv_response data s = none ↔ macBytesOf data = none := by
  rw [parse_tlv_eq]
  by_cases hlen : data.length < 4
  · rw [if_pos hlen]
    rw [macBytesOf, tlvRecords, tlvGo_stop data _ 4 (by omega)]
    simp [lastMac]
  · rw [if_neg hlen, foldl_mac]
    rw [macBytesOf]
    cases hl : lastMac (tlvRecords data) with
    | none => simp
    | some v =>
      obtain ⟨h6, -⟩ := lastMac_eq_some _ v hl
      have hne : formatMac v ≠ "" :=
        formatMac_ne_empty v (by rintro rfl; simp at h6)
      simp [hne]

/-- A decoded device always carries the rendering of the frame's last
valid MAC record, whose bytes are bytes of the frame. -/
theorem parse_eq_some_mac (data : List Nat) (s : String)
    (r : DiscoveredDevice) (h : parse_tlv_response data s = some r) :
    ∃ v, macBytesOf data = some v ∧ v.length = 6 ∧ r.mac = formatMac v ∧
      ∀ b ∈ v, b ∈ data := by
  rw [parse_tlv_eq] at h
  by_cases hlen : data.length < 4
  · rw [if_pos hlen] at h
    simp at h
  · rw [if_neg hlen] at h
    by_cases hmac : ((tlvRecords data).foldl stepField
        ⟨"", s, [], [], [], false⟩).mac = ""
    · rw [if_pos hmac] at h
      simp at h
    · rw [if_neg hmac] at h
      have hr : deviceOfRecords s (tlvRecords data) = r := by simpa using h
      have hm := foldl_mac (tlvRecords data)
        (⟨"", s, [], [], [], false⟩ : ParseState)
      cases hl : lastMac (tlvRecords data) with
      | none =>
        rw [hl] at hm
        simp at hm
        exact absurd hm hmac
      | some v =>
        rw [hl] at hm
        simp at hm
        obtain ⟨h6, x, hx, hxv⟩ := lastMac_eq_some _ v hl
        refine ⟨v, by rw [macBytesOf, hl], h6, ?_, ?_⟩
        · rw [← hr]
          show ((tlvRecords data).foldl stepField
            ⟨"", s, [], [], [], false⟩).mac = formatMac v
          exact hm
        · intro b hb
          exact tlvGo_value_subset data data.length 4 x hx b (by rw [hxv]; exact hb)

/-! ### Injectivity of the MAC rendering -/

theorem hexDigit_inj : ∀ a < 16, ∀ b < 16, hexDigit a = hexDigit b → a = b := by
  decide

theorem byteHex_inj (a b : Nat) (ha : a < 256) (hb : b < 256)
    (h : byteHex a = byteHex b) : a = b := by
  have hd := congrArg String.data h
  simp only [byteHex, List.cons.injEq, and_true] at hd
  have e1 : a / 16 = b / 16 :=
    hexDigit_inj _ (by omega) _ (by omega) hd.1
  have e2 : a % 16 = b % 16 :=
    hexDigit_inj _ (by omega) _ (by omega) hd.2
  omega

theorem formatMac_inj : ∀ (l1 l2 : List Nat), l1.length = l2.length →
    (∀ b ∈ l1, b < 256) → (∀ b ∈ l2, b < 256) →
    formatMac l1 = formatMac l2 → l1 = l2 := by
  intro l1
  induction l1 with
  | nil =>
    intro l2 hlen _ _ _
    cases l2 with
    | nil => rfl
    | cons b t => simp at hlen
  | cons a t ih =>
    intro l2 hlen hb1 hb2 heq
    cases l2 with
    | nil => simp at hlen
    | cons b t2 =>
      have ha : a < 256 := hb1 a (List.mem_cons_self a t)
      have hb : b < 256 := hb2 b (List.mem_cons_self b t2)
      cases t with
      | nil =>
        cases t2 with
        | nil =>
          have hab : byteHex a = byteHex b := heq
          rw [byteHex_inj a b ha hb hab]
        | cons c2 t2x => simp at hlen
      | cons c tx =>
        cases t2 with
        | nil => simp at hlen
        | cons c2 t2x =>
          have hd := congrArg String.data heq
          rw [show formatMac (a :: c :: tx) =
              byteHex a ++ ":" ++ formatMac (c :: tx) from rfl,
            show formatMac (b :: c2 :: t2x) =
              byteHex b ++ ":" ++ formatMac (c2 :: t2x) from rfl] at hd
          simp only [String.data_append, byteHex, List.cons_append,
            List.nil_append, List.cons.injEq] at hd
          obtain ⟨e1, e2, -, erest⟩ := hd
          have hab : a = b := by
            have hx : byteHex a = byteHex b := by
              apply String.ext
              simp [byteHex, e1, e2]
            exact byteHex_inj a b ha hb hx
          have hrest : formatMac (c :: tx) = formatMac (c2 :: t2x) :=
            String.ext erest
          have htail : (c :: tx) = (c2 :: t2x) := by
            refine ih (c2 :: t2x) (by simpa using hlen) ?_ ?_ hrest
            · intro x hx
              exact hb1 x (List.mem_cons_of_mem a hx)
            · intro x hx
              exact hb2 x (List.mem_cons_of_mem b hx)
          rw [hab, htail]

/-! ### Lemmas about the scan dedup loop -/

theorem scanFold_pairwise :
    ∀ (ds : List (List Nat × String)) (acc : List DiscoveredDevice),
      acc.Pairwise (fun a b => a.mac ≠ b.mac) →
      (scanFold ds acc).Pairwise (fun a b => a.mac ≠ b.mac) := by
  intro ds
  induction ds with
  | nil => intro acc h; exact h
  | cons p rest ih =>
    intro acc h
    obtain ⟨bytes, src⟩ := p
    cases hp : parse_tlv_response bytes src with
    | none =>
      rw [show scanFold ((bytes, src) :: rest) acc = scanFold rest acc from
        by simp [scanFold, hp]]
      exact ih acc h
    | some d =>
      rw [show scanFold ((bytes, src) :: rest) acc =
          (if acc.any (fun x => x.mac == d.mac) then scanFold rest acc
            else scanFold rest (acc ++ [d])) from by simp [scanFold, hp]]
      by_cases hany : acc.any (fun x => x.mac == d.mac) = true
      · rw [if_pos hany]
        exact ih acc h
      · rw [if_neg hany]
        apply ih
        rw [List.pairwise_append]
        refine ⟨h, by simp, ?_⟩
        intro x hx y hy
        have hyd : y = d := by simpa using hy
        subst hyd
        intro hxy
        exact hany (List.any_eq_true.mpr ⟨x, hx, beq_iff_eq.mpr hxy⟩)

theorem scanFold_mem_iff :
    ∀ (ds : List (List Nat × String)) (acc : List DiscoveredDevice)
      (m : String) (r : DiscoveredDevice),
      (r ∈ scanFold ds acc ∧ r.mac = m) ↔
        ((r ∈ acc ∧ r.mac = m) ∨
          ((∀ a ∈ acc, a.mac ≠ m) ∧ firstDeviceWithMac ds m = some r)) := by
  intro ds
  induction ds with
  | nil =>
    intro acc m r
    simp [scanFold, firstDeviceWithMac]
  | cons p rest ih =>
    intro acc m r
    obtain ⟨bytes, src⟩ := p
    cases hp : parse_tlv_response bytes src with
    | none =>
      rw [show scanFold ((bytes, src) :: rest) acc = scanFold rest acc from
        by simp [scanFold, hp]]
      rw [show firstDeviceWithMac ((bytes, src) :: rest) m =
          firstDeviceWithMac rest m from
        by simp [firstDeviceWithMac, List.findSome?_cons, hp]]
      exact ih acc m r
    | some d =>
      rw [show scanFold ((bytes, src) :: rest) acc =
          (if acc.any (fun x => x.mac == d.mac) then scanFold rest acc
            else scanFold rest (acc ++ [d])) from by simp [scanFold, hp]]
      have hf : firstDeviceWithMac ((bytes, src) :: rest) m =
          (if d.mac = m then some d else firstDeviceWithMac rest m) := by
        by_cases hdm : d.mac = m
        · simp [firstDeviceWithMac, List.findSome?_cons, hp, hdm]
        · simp [firstDeviceWithMac, List.findSome?_cons, hp, hdm]
      rw [hf]
      by_cases hany : acc.any (fun x => x.mac == d.mac) = true
      · rw [if_pos hany]
        rw [ih acc m r]
        obtain ⟨x, hxacc, hxeq⟩ := List.any_eq_true.mp hany
        have hxd : x.mac = d.mac := eq_of_beq hxeq
        by_cases hdm : d.mac = m
        · rw [if_pos hdm]
          have hxm : x.mac = m := hxd.trans hdm
          constructor
          · rintro (hl | ⟨hall, -⟩)
            · exact Or.inl hl
            · exact absurd hxm (hall x hxacc)
          · rintro (hl | ⟨hall, -⟩)
            · exact Or.inl hl
            · exact absurd hxm (hall x hxacc)
        · rw [if_neg hdm]
      · rw [if_neg hany]
        rw [ih (acc ++ [d]) m r]
        have hall_acc : ∀ x ∈ acc, x.mac ≠ d.mac := by
          intro x hx hxe
          exact hany (List.any_eq_true.mpr ⟨x, hx, beq_iff_eq.mpr hxe⟩)
        by_cases hdm : d.mac = m
        · rw [if_pos hdm]
          constructor
          · rintro (⟨hmem, hm⟩ | ⟨hall, hfirst⟩)
            · rcases List.mem_append.mp hmem with hacc | hd1
              · exact absurd (hm.trans hdm.symm) (hall_acc r hacc)
              · have hrd : r = d := by simpa using hd1
                subst hrd
                exact Or.inr ⟨fun x hx => by
                  rw [← hdm]; exact hall_acc x hx, rfl⟩
            · have := hall d (List.mem_append.mpr (Or.inr (by simp)))
              exact absurd hdm this
          · rintro (⟨hmem, hm⟩ | ⟨-, hsome⟩)
            · exact Or.inl ⟨List.mem_append.mpr (Or.inl hmem), hm⟩
            · have hrd : d = r := by simpa using hsome
              subst hrd
              exact Or.inl ⟨List.mem_append.mpr (Or.inr (by simp)), hdm⟩
        · rw [if_neg hdm]
          constructor
          · rintro (⟨hmem, hm⟩ | ⟨hall, hfirst⟩)
            · rcases List.mem_append.mp hmem with hacc | hd1
              · exact Or.inl ⟨hacc, hm⟩
              · have hrd : r = d := by simpa using hd1
                subst hrd
                exact absurd hm hdm
            · exact Or.inr
                ⟨fun x hx => hall x (List.mem_append.mpr (Or.inl hx)), hfirst⟩
          · rintro (⟨hmem, hm⟩ | ⟨hall, hfirst⟩)
            · exact Or.inl ⟨List.mem_append.mpr (Or.inl hmem), hm⟩
            · refine Or.inr ⟨?_, hfirst⟩
              intro x hx
              rcases List.mem_append.mp hx with hacc | hxd
              · exact hall x hacc
              · have hxd2 : x = d := by simpa using hxd
                subst hxd2
                exact hdm

/-! ### Claim theorems -/

/-- C1: an AuthenticationFailed outcome from the first (external-process)
strategy stops the attempt chain immediately: for every target, inform
URL, and optional credential, the native-protocol strategy is never
invoked (second component `false`) and the authentication-failure message
is what the caller receives. -/
theorem C1_auth_failed_short_circuits (ip inform_url : String)
    (custom_password : Option String) (msg : String)
    (russhOutcome : Except SshError String) :
    adopt_device ip inform_url custom_password
        (Except.error (SshError.authFailed msg)) russhOutcome =
      (Except.error ("Authentication failed: " ++ msg), false) := rfl

/-- C2 counterexample: a CommandFailed outcome from the first strategy is
not terminal — the russh fallback is invoked (second component `true`),
and when the fallback succeeds the caller receives success, not the
CommandFailed result. -/
theorem C2_counterexample :
    (adopt_device "192.168.1.20" "http://ctrl/inform" none
        (Except.error (SshError.commandFailed
          "set-inform returned an error: boom"))
        (Except.error (SshError.other "russh failed"))).2 = true ∧
      adopt_device "192.168.1.20" "http://ctrl/inform" none
          (Except.error (SshError.commandFailed
            "set-inform returned an error: boom"))
          (Except.ok "Adoption request sent") =
        (Except.ok ⟨true, "Adoption request sent"⟩, true) := by
  decide

/-- C2 amended: CommandFailed from the first strategy is treated like any
non-authentication failure — the orchestrator advances to the
native-protocol strategy; the caller receives that strategy's success, or
on its failure a synthesized connect-error message embedding the first
strategy's CommandFailed text. -/
theorem C2_command_failed_falls_through (ip inform_url : String)
    (custom_password : Option String) (msg : String)
    (russhOutcome : Except SshError String) :
    adopt_device ip inform_url custom_password
        (Except.error (SshError.commandFailed msg)) russhOutcome =
      match russhOutcome with
      | .ok out => (Except.ok ⟨true, out⟩, true)
      | .error _ =>
        (Except.error ("SSH error: Failed to connect to " ++ ip ++ ": " ++
          (SshError.commandFailed msg).display), true) := by
  cases russhOutcome with
  | ok out => rfl
  | error e => rfl

/-- C3 counterexample: a frame ending in the 3 header bytes of a
zero-length managed-indicator record decodes with `is_managed = false` —
the trailing record is not processed, contrary to the claim. -/
theorem C3_counterexample :
    (parse_tlv_response frameTrailingManaged "192.168.1.10").map
      (fun d => d.is_managed) = some false := by
  decide

/-- C3 amended: the decoder iterates records only while at least 4 bytes
remain (with exactly 3 bytes left no record is visited), so a trailing
record whose 3 header bytes are the last 3 bytes of the frame is not
processed: a zero-length managed-indicator record at the very end leaves
`is_managed` false, while the same record followed by one more byte is
processed and sets it. -/
theorem C3_loop_needs_four_bytes :
    (∀ (data : List Nat) (fuel pos : Nat), data.length = pos + 3 →
      tlvGo data fuel pos = []) ∧
    (parse_tlv_response frameTrailingManaged "192.168.1.10").map
      (fun d => d.is_managed) = some false ∧
    (parse_tlv_response (frameTrailingManaged ++ [0]) "192.168.1.10").map
      (fun d => d.is_managed) = some true := by
  refine ⟨?_, by decide, by decide⟩
  intro data fuel pos h
  exact tlvGo_stop data fuel pos (by omega)

/-- C3 witness: the loop-exit fact of the amended claim at a concrete
input. -/
theorem C3_witness : tlvGo [9, 9, 9] 7 0 = [] :=
  C3_loop_needs_four_bytes.1 [9, 9, 9] 7 0 rfl

/-- C4 counterexample: the captured output
`"set-inform: error: could not resolve host"` is classified as success by
the shared text heuristic of both strategies, not as CommandFailed: the
word `set-inform` contains the success marker `inform`. -/
theorem C4_counterexample :
    set_inform_classify "set-inform: error: could not resolve host" =
      Except.ok "set-inform: error: could not resolve host" := by
  decide

/-- C4 amended: the heuristic (identical in both strategies) classifies
`"set-inform: error: could not resolve host"` as success, because the
substring `inform` occurs inside `set-inform`; an output containing
`error` with no `inform`, such as `"error: could not resolve host"`, is
classified as CommandFailed. -/
theorem C4_resolve_host_heuristic :
    set_inform_classify "set-inform: error: could not resolve host" =
        Except.ok "set-inform: error: could not resolve host" ∧
      rustContains
        (rustToLowercase "set-inform: error: could not resolve host")
        "inform" = true ∧
      set_inform_classify "error: could not resolve host" =
        Except.error (SshError.commandFailed
          "set-inform returned an error: error: could not resolve host") := by
  decide

/-- C5: on the connect-timeout exit path of the SSH_ASKPASS branch the
temporary askpass script is not deleted — the early return skips the
`remove_file` call, so the script outlives the adoption call, contrary to
the claim (and to the cleanup the code itself attempts at line 132). -/
theorem C5_timeout_leaks_askpass_script :
    ssh_process_askpass "192.168.1.20"
        ⟨none, none, ExecOutcome.timeout⟩ =
      (Except.error (SshError.connectionTimeout
        "Timed out connecting to 192.168.1.20"), true) ∧
    (ssh_process_askpass "192.168.1.20"
        ⟨none, none, ExecOutcome.spawnError "No such file"⟩).2 = true := by
  decide

/-- Exact cleanup behaviour of the SSH_ASKPASS branch: the script file is
absent on return exactly when it was never created (write failed) or the
spawned ssh process ran to completion; chmod failure, connect timeout and
spawn failure all leak it.  (Supporting lemma for C5; not itself a claim.) -/
theorem askpass_cleanup_characterization (ip : String) (env : AskpassEnv) :
    (ssh_process_askpass ip env).2 = false ↔
      (env.writeError ≠ none ∨
        (env.chmodError = none ∧
          ∃ b out err, env.exec = ExecOutcome.completed b out err)) := by
  obtain ⟨w, c, e⟩ := env
  cases w with
  | some msg => simp [ssh_process_askpass]
  | none =>
    cases c with
    | some msg => simp [ssh_process_askpass]
    | none =>
      cases e with
      | timeout => simp [ssh_process_askpass]
      | spawnError m => simp [ssh_process_askpass]
      | completed b out err =>
        cases b <;> simp [ssh_process_askpass]

/-- C6: the decoder returns `none` exactly when no MAC field was
successfully decoded from the frame (no MAC-typed record of length 6 was
visited), and a returned device record always has a non-empty MAC
string. -/
theorem C6_none_iff_no_mac (data : List Nat) (s : String) :
    (parse_tlv_response data s = none ↔ macRecordPresent data = false) ∧
    ∀ r : DiscoveredDevice, parse_tlv_response data s = some r →
      r.mac ≠ "" := by
  constructor
  · rw [parse_eq_none_iff data s, macBytesOf, lastMac_eq_none_iff,
      macRecordPresent, List.any_eq_false]
    simp only [Bool.and_eq_true, beq_iff_eq]
  · intro r h
    obtain ⟨v, -, h6, hmac, -⟩ := parse_eq_some_mac data s r h
    rw [hmac]
    exact formatMac_ne_empty v (by rintro rfl; simp at h6)

/-- C6 witness: the contract evaluated on a concrete frame and its decoded
device. -/
theorem C6_witness :
    (parse_tlv_response frameWithMac "192.168.1.7" = none ↔
        macRecordPresent frameWithMac = false) ∧
      deviceWithMac.mac ≠ "" :=
  ⟨(C6_none_iff_no_mac frameWithMac "192.168.1.7").1,
    (C6_none_iff_no_mac frameWithMac "192.168.1.7").2 deviceWithMac
      (by decide)⟩

/-- C7: decoding is total on truncations — for every frame and every cut
point, the records visited on the truncation are a prefix of the records
visited on the full frame (so every captured field comes from a record
fully present before the cut), and the decoder returns either `none` or
the device assembled from exactly those records.  A trailing record whose
declared length exceeds the remaining bytes is simply not visited. -/
theorem C7_truncation_safe (data : List Nat) (n : Nat) (s : String) :
    tlvRecords (data.take n) <+: tlvRecords data ∧
    (parse_tlv_response (data.take n) s = none ∨
      parse_tlv_response (data.take n) s =
        some (deviceOfRecords s (tlvRecords (data.take n)))) := by
  refine ⟨tlvRecords_take data n, ?_⟩
  rw [parse_tlv_eq]
  by_cases h : (data.take n).length < 4
  · rw [if_pos h]
    exact Or.inl rfl
  · rw [if_neg h]
    by_cases hm : ((tlvRecords (data.take n)).foldl stepField
        ⟨"", s, [], [], [], false⟩).mac = ""
    · rw [if_pos hm]
      exact Or.inl rfl
    · rw [if_neg hm]
      exact Or.inr rfl

/-- C8: MAC rendering is injective — two decoded records have equal MAC
strings exactly when their frames carry the same (last valid) 6-byte MAC
value. -/
theorem C8_mac_injective (d1 d2 : List Nat) (s1 s2 : String)
    (r1 r2 : DiscoveredDevice)
    (hb1 : ∀ b ∈ d1, b < 256) (hb2 : ∀ b ∈ d2, b < 256)
    (h1 : parse_tlv_response d1 s1 = some r1)
    (h2 : parse_tlv_response d2 s2 = some r2) :
    r1.mac = r2.mac ↔ macBytesOf d1 = macBytesOf d2 := by
  obtain ⟨v1, hm1, h61, hr1, hsub1⟩ := parse_eq_some_mac d1 s1 r1 h1
  obtain ⟨v2, hm2, h62, hr2, hsub2⟩ := parse_eq_some_mac d2 s2 r2 h2
  rw [hr1, hr2, hm1, hm2]
  constructor
  · intro h
    rw [formatMac_inj v1 v2 (by rw [h61, h62])
      (fun b hb => hb1 b (hsub1 b hb)) (fun b hb => hb2 b (hsub2 b hb)) h]
  · intro h
    have hv : v1 = v2 := by simpa using h
    rw [hv]

/-- C8 witness: the injectivity equivalence applied to two concrete
frames with distinct MAC values. -/
theorem C8_witness :
    deviceMacA.mac = deviceMacB.mac ↔
      macBytesOf frameMacA = macBytesOf frameMacB :=
  C8_mac_injective frameMacA frameMacB "10.0.0.1" "10.0.0.2"
    deviceMacA deviceMacB (by decide) (by decide) (by decide) (by decide)

/-- C9: a scan's result never holds two records with the same MAC, and
the record present for a MAC is exactly the device parsed from the first
received datagram carrying that MAC (hence it retains that datagram's
source address); later duplicates are discarded. -/
theorem C9_scan_dedups_by_mac (ds : List (List Nat × String)) :
    (scan_results ds).Pairwise (fun a b => a.mac ≠ b.mac) ∧
    ∀ (m : String) (r : DiscoveredDevice),
      (r ∈ scan_results ds ∧ r.mac = m) ↔
        firstDeviceWithMac ds m = some r := by
  constructor
  · exact scanFold_pairwise ds [] (by simp)
  · intro m r
    show (r ∈ scanFold ds [] ∧ r.mac = m) ↔ _
    rw [scanFold_mem_iff ds [] m r]
    simp

/-- C10: a MAC-typed record whose length is not 6 leaves the loop state
unchanged (so it can never corrupt a MAC captured earlier); a frame whose
MAC-typed records all have wrong lengths decodes to `none`; and a valid
MAC followed by a short MAC-typed record still decodes to the valid
MAC. -/
theorem C10_wrong_length_mac_ignored (st : ParseState) (v : List Nat)
    (data : List Nat) (s : String) :
    (v.length ≠ 6 → applyField st TLV_MAC_ADDRESS v = st) ∧
    ((∀ r ∈ tlvRecords data, r.1 = TLV_MAC_ADDRESS → r.2.length ≠ 6) →
      parse_tlv_response data s = none) ∧
    (parse_tlv_response frameGoodThenShortMac "10.0.0.3").map
      (fun d => d.mac) = some "AA:BB:CC:DD:EE:FF" := by
  refine ⟨?_, ?_, by decide⟩
  · intro h
    unfold applyField
    rw [if_pos rfl, if_neg h]
  · intro h
    rw [parse_eq_none_iff, macBytesOf, lastMac_eq_none_iff]
    intro r hr hcon
    exact h r hr hcon.1 hcon.2

/-- C10 witness: both parts applied at concrete inputs — a length-2
MAC-typed record leaves a state unchanged, and a frame whose only
MAC-typed record has length 2 decodes to `none`. -/
theorem C10_witness :
    applyField ⟨"", "10.0.0.3", [], [], [], false⟩ TLV_MAC_ADDRESS [9, 9] =
        ⟨"", "10.0.0.3", [], [], [], false⟩ ∧
      parse_tlv_response frameWrongLenMac "10.0.0.3" = none :=
  ⟨(C10_wrong_length_mac_ignored ⟨"", "10.0.0.3", [], [], [], false⟩ [9, 9]
      frameWrongLenMac "10.0.0.3").1 (by decide),
    (C10_wrong_length_mac_ignored ⟨"", "10.0.0.3", [], [], [], false⟩ [9, 9]
      frameWrongLenMac "10.0.0.3").2.1 (by decide)⟩

end UbiquityTauri
